import Mathlib

/-!
Verification of the `genomics_ood` dataset builder
(`tensorflow_datasets/structured/genomics_ood.py`).

The builder has two parts:

* `GenomicsOod._split_generators`: a fixed table binding five split names to
  file names joined (with `os.path.join`) to the extracted data directory.
* `GenomicsOod._generate_examples`: opens one file, wraps it in
  `csv.DictReader(f, delimiter='\t')`, and for each row dict yields
  `(row_id, example)` where `example` copies the values of the columns
  `seq`, `label_id`, `label_name`, `seq_info`, `domain`.

The embedding below models a file's contents as the list of its text lines
(the line iteration that `GFile` provides).  `parseCSVLine` is the per-line
field scanner of Python's `csv` reader for the dialect used here (delimiter
tab, quote character `"`, doubled quotes, non-strict); a quoted field is
terminated at end of line — the Python reader would continue a quoted field
onto the following line, a situation outside every well-formedness
assumption used below.  `runGen` is `_generate_examples`: the first line is
consumed as the `DictReader` field names, blank rows (empty lines) are
skipped, each remaining row is turned into a dict — `dict(zip(fieldnames,
row))`, with missing trailing values filled with the `restval` `None` and a
repeated field name bound to its last value — and the five named columns are
looked up; a lookup of a name absent from the field names is a `KeyError`,
which aborts the generator.  `row_id` comes from `enumerate`, counting only
yielded rows.
-/

namespace GenomicsOod

/-- States of the per-character csv field scanner of Python's `csv` reader. -/
inductive CsvState where
  | startField
  | inField
  | inQuoted
  | quoteInQuoted
deriving DecidableEq

/-- Per-character loop of the csv reader on one line: delimiter `'\t'`,
quote character `'"'`, doubled quotes, non-strict.  `acc` holds the current
field's characters in reverse. -/
def csvAux (s : CsvState) (acc : List Char) : List Char → List String
  | [] => [String.mk acc.reverse]
  | c :: rest =>
    match s with
    | .startField =>
      if c = '\"' then csvAux .inQuoted acc rest
      else if c = '\t' then String.mk acc.reverse :: csvAux .startField [] rest
      else csvAux .inField (c :: acc) rest
    | .inField =>
      if c = '\t' then String.mk acc.reverse :: csvAux .startField [] rest
      else csvAux .inField (c :: acc) rest
    | .inQuoted =>
      if c = '\"' then csvAux .quoteInQuoted acc rest
      else csvAux .inQuoted (c :: acc) rest
    | .quoteInQuoted =>
      if c = '\"' then csvAux .inQuoted ('\"' :: acc) rest
      else if c = '\t' then String.mk acc.reverse :: csvAux .startField [] rest
      else csvAux .inField (c :: acc) rest

/-- Fields of one line, as Python's csv reader produces them: an empty line
is the blank row `[]`, any other line is scanned by `csvAux`. -/
def parseCSVLine (line : String) : List String :=
  match line.data with
  | [] => []
  | c :: cs => csvAux CsvState.startField [] (c :: cs)

/-- Index of the last occurrence of `k` in a list of field names.
`dict(zip(fieldnames, row))` binds a repeated key to its last value, and the
`restval` loop of `DictReader` then overwrites the keys at positions at or
beyond the row length; so `d[k]` is the row value at the last occurrence of
`k`, or `None` when that position is beyond the row. -/
def lastIdxOf (k : String) : List String → Option Nat
  | [] => none
  | a :: as =>
    match lastIdxOf k as with
    | some i => some (i + 1)
    | none => if a = k then some 0 else none

/-- Index of the first occurrence of `k` in the header, the spec-side notion
of "the column named `k`". -/
def firstIdxOf (k : String) : List String → Option Nat
  | [] => none
  | a :: as => if a = k then some 0 else (firstIdxOf k as).map (· + 1)

/-- One yielded example.  Field values are `Option String` because
`DictReader` fills the columns a short row is missing with `None`. -/
structure Record where
  seq : Option String
  label_id : Option String
  label_name : Option String
  seq_info : Option String
  domain : Option String
deriving DecidableEq

/-- Python `row[k]` on a `DictReader` row dict: `KeyError k` when `k` is not
among the field names, otherwise the row value at the last occurrence of `k`
(`none` when the row is too short: the `restval` fill). -/
def keyGet (fn fields : List String) (k : String) : Except String (Option String) :=
  match lastIdxOf k fn with
  | none => .error k
  | some i => .ok fields[i]?

/-- Body of the loop of `GenomicsOod._generate_examples`: build the example
dict by looking up the five columns, in the source's order.  The first
missing column name raises the `KeyError`. -/
def buildExample (fn fields : List String) : Except String Record := do
  let seq ← keyGet fn fields "seq"
  let label_id ← keyGet fn fields "label_id"
  let label_name ← keyGet fn fields "label_name"
  let seq_info ← keyGet fn fields "seq_info"
  let domain ← keyGet fn fields "domain"
  return ⟨seq, label_id, label_name, seq_info, domain⟩

/-- Errors that can end an enumeration. -/
inductive Err where
  | notFound
  | keyError (k : String)
deriving DecidableEq

/-- Enumeration loop over the parsed data rows: `i` is the next `row_id`
from `enumerate`.  Returns the yielded `(row_id, example)` pairs and the
error that stopped the generator, if any. -/
def runGenGo (fn : List String) : List (List String) → Nat → List (Nat × Record) × Option Err
  | [], _ => ([], none)
  | r :: rs, i =>
    match buildExample fn r with
    | .ok rec =>
      let p := runGenGo fn rs (i + 1)
      ((i, rec) :: p.1, p.2)
    | .error k => ([], some (.keyError k))

/-- `GenomicsOod._generate_examples` on a file's contents, given as its list
of lines: the first line becomes the `DictReader` field names (an empty file
yields nothing), blank rows are skipped before `enumerate` numbers the
remaining rows. -/
def runGen : List String → List (Nat × Record) × Option Err
  | [] => ([], none)
  | hdr :: rest =>
    runGenGo (parseCSVLine hdr) ((rest.map parseCSVLine).filter (fun r => !r.isEmpty)) 0

/-- Modelled from the spec: the file system that `tf.io.gfile.GFile` reads
is outside this repository, so it is abstracted as a partial map from paths
to file contents (lists of lines); opening an absent path fails with a
not-found error before any record is yielded, per the spec's error
taxonomy. -/
def generateFromFS (fs : String → Option (List String)) (path : String) :
    List (Nat × Record) × Option Err :=
  match fs path with
  | none => ([], some .notFound)
  | some lines => runGen lines

/-- `os.path.join(a, b)` for a single posix path component `b`. -/
def osPathJoin (a b : String) : String :=
  if b.startsWith "/" then b
  else if a = "" || a.endsWith "/" then a ++ b
  else a ++ "/" ++ b

/-- One `tfds.core.SplitGenerator`: a split name and the keyword argument
`filename` passed to `_generate_examples`. -/
structure SplitGenerator where
  name : String
  filename : String
deriving DecidableEq

/-- `GenomicsOod._split_generators`, as a function of the extracted data
directory returned by the download manager. -/
def splitGenerators (data_path : String) : List SplitGenerator :=
  [⟨"train", osPathJoin data_path "before_2011_in_tr.txt"⟩,
   ⟨"validation", osPathJoin data_path "between_2011-2016_in_val.txt"⟩,
   ⟨"test", osPathJoin data_path "after_2016_in_test.txt"⟩,
   ⟨"validation_ood", osPathJoin data_path "between_2011-2016_ood_val.txt"⟩,
   ⟨"test_ood", osPathJoin data_path "after_2016_ood_test.txt"⟩]

/-- Semantic feature types declared in `GenomicsOod._info`. -/
inductive FeatureType where
  | text
  | int32
deriving DecidableEq

/-- The features dict of `GenomicsOod._info`. -/
def schema : List (String × FeatureType) :=
  [("seq", .text), ("label_id", .int32), ("label_name", .text),
   ("seq_info", .text), ("domain", .text)]

/-- The `supervised_keys` declared in `GenomicsOod._info`. -/
def supervisedKeys : String × String := ("seq", "label_id")

/-- The five column names `_generate_examples` reads, in the source's
order. -/
def requiredColumns : List String :=
  ["seq", "label_id", "label_name", "seq_info", "domain"]

/-- Spec-side reading of "the text of the column named `k` in this row": the
row field at the position where `k` appears in the header. -/
def columnText (hdr fields : List String) (k : String) : Option String :=
  match firstIdxOf k hdr with
  | none => none
  | some i => fields[i]?

/-- Spec-side record for a row: each of the five output fields is the text
of the header column of the same name. -/
def specRecord (hdr fields : List String) : Record :=
  ⟨columnText hdr fields "seq", columnText hdr fields "label_id",
   columnText hdr fields "label_name", columnText hdr fields "seq_info",
   columnText hdr fields "domain"⟩

/-- Closed form of the example dict the code builds for one row, via the
`dict(zip(...))`-with-`restval` semantics of `DictReader`. -/
def recordOfRow (fn fields : List String) : Record :=
  ⟨(lastIdxOf "seq" fn).bind (fun i => fields[i]?),
   (lastIdxOf "label_id" fn).bind (fun i => fields[i]?),
   (lastIdxOf "label_name" fn).bind (fun i => fields[i]?),
   (lastIdxOf "seq_info" fn).bind (fun i => fields[i]?),
   (lastIdxOf "domain" fn).bind (fun i => fields[i]?)⟩

theorem csvAux_ne_nil (s : CsvState) (acc : List Char) (l : List Char) :
    csvAux s acc l ≠ [] := by
  induction l generalizing s acc with
  | nil => simp [csvAux]
  | cons c rest ih =>
    cases s <;> simp only [csvAux] <;> split_ifs <;>
      first
      | exact ih _ _
      | simp

theorem parseCSVLine_eq_nil_iff (l : String) : parseCSVLine l = [] ↔ l = "" := by
  obtain ⟨data⟩ := l
  cases data with
  | nil => constructor <;> intro <;> rfl
  | cons c cs =>
    simp only [parseCSVLine]
    constructor
    · intro h
      exact absurd h (csvAux_ne_nil _ _ _)
    · intro h
      have := congrArg String.data h
      simp at this

theorem lastIdxOf_eq_none_iff (k : String) (l : List String) :
    lastIdxOf k l = none ↔ k ∉ l := by
  induction l with
  | nil => simp [lastIdxOf]
  | cons a as ih =>
    cases h : lastIdxOf k as with
    | some i =>
      have hk : k ∈ as := by
        by_contra hc
        rw [← ih] at hc
        simp [h] at hc
      simp [lastIdxOf, h, hk]
    | none =>
      have hk : k ∉ as := ih.mp h
      by_cases hak : a = k
      · simp [lastIdxOf, h, hk, hak]
      · simp [lastIdxOf, h, hk, hak]
        exact fun hh => hak hh.symm

theorem lastIdxOf_isSome_of_mem (k : String) (l : List String) (h : k ∈ l) :
    ∃ i, lastIdxOf k l = some i := by
  cases hl : lastIdxOf k l with
  | none => exact absurd ((lastIdxOf_eq_none_iff k l).mp hl) (by simp [h])
  | some i => exact ⟨i, rfl⟩

theorem lastIdxOf_eq_first (fn : List String) (hnd : fn.Nodup) :
    ∀ k, lastIdxOf k fn = firstIdxOf k fn := by
  induction fn with
  | nil => intro k; rfl
  | cons a as ih =>
    intro k
    have hna : a ∉ as := (List.nodup_cons.mp hnd).1
    have has : as.Nodup := (List.nodup_cons.mp hnd).2
    by_cases hak : a = k
    · subst hak
      have hz : lastIdxOf a as = none := (lastIdxOf_eq_none_iff a as).mpr hna
      simp [lastIdxOf, firstIdxOf, hz]
    · have heq := ih has k
      cases h : lastIdxOf k as with
      | some i =>
        have hf : firstIdxOf k as = some i := heq ▸ h
        simp [lastIdxOf, firstIdxOf, h, hf, hak]
      | none =>
        have hf : firstIdxOf k as = none := heq ▸ h
        simp [lastIdxOf, firstIdxOf, h, hf, hak]

theorem recordOfRow_eq_spec (fn fields : List String) (hnd : fn.Nodup) :
    recordOfRow fn fields = specRecord fn fields := by
  simp only [recordOfRow, specRecord, columnText, lastIdxOf_eq_first fn hnd]
  congr 1 <;> cases firstIdxOf _ fn <;> rfl

theorem buildExample_eq_ok (fn fields : List String)
    (h : ∀ c ∈ requiredColumns, c ∈ fn) :
    buildExample fn fields = .ok (recordOfRow fn fields) := by
  obtain ⟨i1, e1⟩ := lastIdxOf_isSome_of_mem "seq" fn (h _ (by simp [requiredColumns]))
  obtain ⟨i2, e2⟩ := lastIdxOf_isSome_of_mem "label_id" fn (h _ (by simp [requiredColumns]))
  obtain ⟨i3, e3⟩ := lastIdxOf_isSome_of_mem "label_name" fn (h _ (by simp [requiredColumns]))
  obtain ⟨i4, e4⟩ := lastIdxOf_isSome_of_mem "seq_info" fn (h _ (by simp [requiredColumns]))
  obtain ⟨i5, e5⟩ := lastIdxOf_isSome_of_mem "domain" fn (h _ (by simp [requiredColumns]))
  simp [buildExample, keyGet, recordOfRow, e1, e2, e3, e4, e5,
    Bind.bind, Except.bind, Pure.pure, Except.pure]

theorem runGenGo_snd (fn : List String) (rows : List (List String)) (i : Nat)
    (h : ∀ c ∈ requiredColumns, c ∈ fn) :
    (runGenGo fn rows i).2 = none := by
  induction rows generalizing i with
  | nil => rfl
  | cons r rs ih => simp [runGenGo, buildExample_eq_ok fn r h, ih]

theorem runGenGo_length (fn : List String) (rows : List (List String)) (i : Nat)
    (h : ∀ c ∈ requiredColumns, c ∈ fn) :
    (runGenGo fn rows i).1.length = rows.length := by
  induction rows generalizing i with
  | nil => rfl
  | cons r rs ih => simp [runGenGo, buildExample_eq_ok fn r h, ih]

theorem runGenGo_getElem (fn : List String) (rows : List (List String)) (i : Nat)
    (h : ∀ c ∈ requiredColumns, c ∈ fn) :
    ∀ j : Nat, (runGenGo fn rows i).1[j]? =
      (rows[j]?).map (fun r => (i + j, recordOfRow fn r)) := by
  induction rows generalizing i with
  | nil => intro j; simp [runGenGo]
  | cons r rs ih =>
    intro j
    cases j with
    | zero => simp [runGenGo, buildExample_eq_ok fn r h]
    | succ j =>
      simp only [runGenGo, buildExample_eq_ok fn r h, List.getElem?_cons_succ]
      rw [ih (i + 1) j]
      cases hr : rs[j]? with
      | none => simp
      | some rr => simp [Prod.ext_iff]; omega

theorem runGenGo_map_fst (fn : List String) (rows : List (List String)) (i : Nat)
    (h : ∀ c ∈ requiredColumns, c ∈ fn) :
    (runGenGo fn rows i).1.map Prod.fst = List.range' i rows.length := by
  induction rows generalizing i with
  | nil => rfl
  | cons r rs ih =>
    simp [runGenGo, buildExample_eq_ok fn r h, ih, List.range'_succ]

theorem runGen_eq (hdr : String) (rows : List String)
    (hrows : ∀ r ∈ rows, r ≠ "") :
    runGen (hdr :: rows) = runGenGo (parseCSVLine hdr) (rows.map parseCSVLine) 0 := by
  have hf : (rows.map parseCSVLine).filter (fun r => !r.isEmpty) = rows.map parseCSVLine := by
    apply List.filter_eq_self.mpr
    intro x hx
    obtain ⟨r, hr, rfl⟩ := List.mem_map.mp hx
    have hne : parseCSVLine r ≠ [] := by
      intro hn
      exact (hrows r hr) ((parseCSVLine_eq_nil_iff r).mp hn)
    simp [hne]
  simp [runGen, hf]

/-- C1: for a well-formed file — a header line naming all five required
columns followed by `N` non-empty data rows — `_generate_examples` yields
exactly `N` (ordinal, Record) pairs with no error, the ordinals being
`0..N-1` in file order; the header is consumed as field names and receives
no ordinal. -/
theorem parser_count_and_ordinals (hdr : String) (rows : List String)
    (hcols : ∀ c ∈ requiredColumns, c ∈ parseCSVLine hdr)
    (hrows : ∀ r ∈ rows, r ≠ "") :
    (runGen (hdr :: rows)).2 = none ∧
    (runGen (hdr :: rows)).1.length = rows.length ∧
    (runGen (hdr :: rows)).1.map Prod.fst = List.range rows.length := by
  rw [runGen_eq hdr rows hrows]
  refine ⟨runGenGo_snd _ _ _ hcols, ?_, ?_⟩
  · rw [runGenGo_length _ _ _ hcols]
    simp
  · rw [runGenGo_map_fst _ _ _ hcols, List.range_eq_range' rows.length]
    simp

/-- C1 witness: a concrete two-row file. -/
theorem parser_count_and_ordinals_witness :
    (runGen ["seq\tlabel_id\tlabel_name\tseq_info\tdomain",
      "ACGT\t0\tBacillus\tNC_1:5-255\tin",
      "TTGA\t1\tClostridium\tNC_2:9-259\tood"]).2 = none ∧
    (runGen ["seq\tlabel_id\tlabel_name\tseq_info\tdomain",
      "ACGT\t0\tBacillus\tNC_1:5-255\tin",
      "TTGA\t1\tClostridium\tNC_2:9-259\tood"]).1.length =
      ["ACGT\t0\tBacillus\tNC_1:5-255\tin",
       "TTGA\t1\tClostridium\tNC_2:9-259\tood"].length ∧
    (runGen ["seq\tlabel_id\tlabel_name\tseq_info\tdomain",
      "ACGT\t0\tBacillus\tNC_1:5-255\tin",
      "TTGA\t1\tClostridium\tNC_2:9-259\tood"]).1.map Prod.fst =
      List.range ["ACGT\t0\tBacillus\tNC_1:5-255\tin",
        "TTGA\t1\tClostridium\tNC_2:9-259\tood"].length :=
  parser_count_and_ordinals "seq\tlabel_id\tlabel_name\tseq_info\tdomain"
    ["ACGT\t0\tBacillus\tNC_1:5-255\tin",
     "TTGA\t1\tClostridium\tNC_2:9-259\tood"] (by decide) (by decide)

/-- C9: a file consisting of the header line only yields zero records and
no error. -/
theorem header_only_no_records (hdr : String) : runGen [hdr] = ([], none) := rfl

/-- C4: the split resolver produces exactly five splits, in the order
train, validation, test, validation_ood, test_ood, bound to the five fixed
file names joined (with `os.path.join`) to the root; being a plain function
of the root path, the mapping is stable across calls with no side
effects. -/
theorem split_resolver_table (root : String) :
    (splitGenerators root).length = 5 ∧
    (splitGenerators root).map (fun g => (g.name, g.filename)) =
      [("train", osPathJoin root "before_2011_in_tr.txt"),
       ("validation", osPathJoin root "between_2011-2016_in_val.txt"),
       ("test", osPathJoin root "after_2016_in_test.txt"),
       ("validation_ood", osPathJoin root "between_2011-2016_ood_val.txt"),
       ("test_ood", osPathJoin root "after_2016_ood_test.txt")] :=
  ⟨rfl, rfl⟩

/-- C6: the parser is deterministic — its output depends only on the file
contents it reads: any two invocations that see the same contents (the same
path re-opened unchanged, or any path bound to equal contents) yield
identical sequences of (ordinal, Record) pairs. -/
theorem parser_deterministic (fs fs2 : String → Option (List String))
    (p p2 : String) (h : fs p = fs2 p2) :
    generateFromFS fs p = generateFromFS fs2 p2 := by
  simp only [generateFromFS, h]

/-- C6 witness: the same contents behind two different paths and file
systems give the same output. -/
theorem parser_deterministic_witness :
    generateFromFS
      (fun q => if q = "genomics.txt" then
        some ["seq\tlabel_id\tlabel_name\tseq_info\tdomain", "ACGT\t0\tB\tI\tin"]
      else none)
      "genomics.txt" =
    generateFromFS
      (fun _ => some ["seq\tlabel_id\tlabel_name\tseq_info\tdomain", "ACGT\t0\tB\tI\tin"])
      "other.txt" :=
  parser_deterministic _ _ "genomics.txt" "other.txt" (by decide)

/-- C8: a split whose source file is absent fails with a not-found error at
open time, before any record is yielded, while a split whose file is
present parses exactly its own contents, unaffected by the failure. -/
theorem missing_file_not_found (fs : String → Option (List String))
    (p q : String) (L : List String)
    (hp : fs p = none) (hq : fs q = some L) :
    generateFromFS fs p = ([], some Err.notFound) ∧
    generateFromFS fs q = runGen L := by
  constructor
  · simp [generateFromFS, hp]
  · simp [generateFromFS, hq]

/-- C8 witness: one absent and one present file. -/
theorem missing_file_not_found_witness :
    generateFromFS
      (fun q => if q = "present.txt" then
        some ["seq\tlabel_id\tlabel_name\tseq_info\tdomain", "A\t1\tB\tI\tood"]
      else none)
      "absent.txt" = ([], some Err.notFound) ∧
    generateFromFS
      (fun q => if q = "present.txt" then
        some ["seq\tlabel_id\tlabel_name\tseq_info\tdomain", "A\t1\tB\tI\tood"]
      else none)
      "present.txt" =
      runGen ["seq\tlabel_id\tlabel_name\tseq_info\tdomain", "A\t1\tB\tI\tood"] :=
  missing_file_not_found _ "absent.txt" "present.txt" _ (by decide) (by decide)

/-- C3: in a well-formed file (header naming all five columns with distinct
names, non-empty data rows), the j-th yielded pair is exactly the pair of j
and the record whose five fields are the texts of the header-named columns
of the j-th data row, copied verbatim — `specRecord` reads each field as
the row's raw text at the named column's header position, with no trimming
and no case change. -/
theorem fields_verbatim_by_name (hdr : String) (rows : List String)
    (hcols : ∀ c ∈ requiredColumns, c ∈ parseCSVLine hdr)
    (hnd : (parseCSVLine hdr).Nodup)
    (hrows : ∀ r ∈ rows, r ≠ "")
    (j : Nat) (hj : j < rows.length) :
    (runGen (hdr :: rows)).1[j]? =
      some (j, specRecord (parseCSVLine hdr) (parseCSVLine (rows.get ⟨j, hj⟩))) := by
  rw [runGen_eq hdr rows hrows, runGenGo_getElem _ _ _ hcols j]
  have hrow : (rows.map parseCSVLine)[j]? = some (parseCSVLine (rows.get ⟨j, hj⟩)) := by
    rw [List.getElem?_map]
    simp [List.getElem?_eq_getElem, hj]
  rw [hrow]
  simp only [Option.map_some']
  rw [recordOfRow_eq_spec _ _ hnd]
  simp

/-- C3 witness: the spec's own scenario row. -/
theorem fields_verbatim_by_name_witness :
    (runGen ["seq\tlabel_id\tlabel_name\tseq_info\tdomain",
      "ACGT\t3\tEcoli\tNC_000913.3:100-350\tin"]).1[0]? =
      some (0, specRecord (parseCSVLine "seq\tlabel_id\tlabel_name\tseq_info\tdomain")
        (parseCSVLine (["ACGT\t3\tEcoli\tNC_000913.3:100-350\tin"].get ⟨0, by decide⟩))) :=
  fields_verbatim_by_name "seq\tlabel_id\tlabel_name\tseq_info\tdomain"
    ["ACGT\t3\tEcoli\tNC_000913.3:100-350\tin"]
    (by decide) (by decide) (by decide) 0 (by decide)

/-- C10: blank lines are silently skipped: a file whose data region holds
empty lines interspersed with K non-empty lines yields exactly K records
with contiguous ordinals 0..K-1 and no error; no record and no error is
produced for a blank line. -/
theorem blank_lines_skipped (hdr : String) (rest : List String)
    (hcols : ∀ c ∈ requiredColumns, c ∈ parseCSVLine hdr) :
    (runGen (hdr :: rest)).2 = none ∧
    (runGen (hdr :: rest)).1.length = (rest.filter (fun r => !(r == ""))).length ∧
    (runGen (hdr :: rest)).1.map Prod.fst =
      List.range (rest.filter (fun r => !(r == ""))).length := by
  have hsplit : (rest.map parseCSVLine).filter (fun r => !r.isEmpty) =
      (rest.filter (fun r => !(r == ""))).map parseCSVLine := by
    rw [List.filter_map parseCSVLine rest]
    congr 1
    apply List.filter_congr
    intro x _
    by_cases hx : x = ""
    · subst hx
      simp [parseCSVLine]
    · have hne : parseCSVLine x ≠ [] := fun hn => hx ((parseCSVLine_eq_nil_iff x).mp hn)
      have h1 : (parseCSVLine x).isEmpty = false := by
        cases hp : parseCSVLine x with
        | nil => exact absurd hp hne
        | cons a l => rfl
      have h2 : (x == "") = false := by simp [hx]
      simp [h1, h2]
  simp only [runGen, hsplit]
  refine ⟨runGenGo_snd _ _ _ hcols, ?_, ?_⟩
  · rw [runGenGo_length _ _ _ hcols]
    simp
  · rw [runGenGo_map_fst _ _ _ hcols,
      List.range_eq_range' (rest.filter (fun r => !(r == ""))).length]
    simp

/-- C10 witness: two blank lines interleaved with two data rows. -/
theorem blank_lines_skipped_witness :
    (runGen ["seq\tlabel_id\tlabel_name\tseq_info\tdomain",
      "", "ACGT\t0\tB1\tI1\tin", "", "TTAA\t1\tB2\tI2\tood"]).2 = none ∧
    (runGen ["seq\tlabel_id\tlabel_name\tseq_info\tdomain",
      "", "ACGT\t0\tB1\tI1\tin", "", "TTAA\t1\tB2\tI2\tood"]).1.length =
      (["", "ACGT\t0\tB1\tI1\tin", "", "TTAA\t1\tB2\tI2\tood"].filter
        (fun r => !(r == ""))).length ∧
    (runGen ["seq\tlabel_id\tlabel_name\tseq_info\tdomain",
      "", "ACGT\t0\tB1\tI1\tin", "", "TTAA\t1\tB2\tI2\tood"]).1.map Prod.fst =
      List.range (["", "ACGT\t0\tB1\tI1\tin", "", "TTAA\t1\tB2\tI2\tood"].filter
        (fun r => !(r == ""))).length :=
  blank_lines_skipped "seq\tlabel_id\tlabel_name\tseq_info\tdomain"
    ["", "ACGT\t0\tB1\tI1\tin", "", "TTAA\t1\tB2\tI2\tood"] (by decide)

/-- C2 counterexample: a file whose second data row has 4 fields where the
header declares 5 does NOT abort enumeration with a parse error — contrary
to the claim, `DictReader` fills the missing `domain` column with the
`restval` `None`, the row is yielded, and the rows after it are yielded
too: three records, no error, and the short row's `domain` is `none`. -/
theorem short_row_counterexample :
    (runGen ["seq\tlabel_id\tlabel_name\tseq_info\tdomain",
      "ACGT\t0\tB1\tI1\tin",
      "TTAA\t1\tB2\tI2",
      "GGCC\t2\tB3\tI3\tood"]).2 = none ∧
    (runGen ["seq\tlabel_id\tlabel_name\tseq_info\tdomain",
      "ACGT\t0\tB1\tI1\tin",
      "TTAA\t1\tB2\tI2",
      "GGCC\t2\tB3\tI3\tood"]).1.length = 3 ∧
    ((runGen ["seq\tlabel_id\tlabel_name\tseq_info\tdomain",
      "ACGT\t0\tB1\tI1\tin",
      "TTAA\t1\tB2\tI2",
      "GGCC\t2\tB3\tI3\tood"]).1[1]?).map (fun pr => pr.2.domain) = some none := by
  decide

/-- C2 amended: when a data row has fewer fields than the header declares
(the header naming all five columns), enumeration does not fail: every
non-empty row — the short one included — yields a record, with no error,
and a field whose header position lies beyond the short row's field count
is filled with `none` (`DictReader`'s `restval`); records yielded before
the short row are unaffected.  A malformed-row `KeyError` can only arise
when a required column name is missing from the header itself. -/
theorem short_rows_fill_none (hdr : String) (rows : List String)
    (hcols : ∀ c ∈ requiredColumns, c ∈ parseCSVLine hdr)
    (hrows : ∀ r ∈ rows, r ≠ "") :
    (runGen (hdr :: rows)).2 = none ∧
    (runGen (hdr :: rows)).1.length = rows.length ∧
    ∀ j : Fin rows.length, ∀ i : Nat,
      lastIdxOf "domain" (parseCSVLine hdr) = some i →
      (parseCSVLine (rows.get j)).length ≤ i →
      ((runGen (hdr :: rows)).1[j.val]?).map (fun pr => pr.2.domain) = some none := by
  rw [runGen_eq hdr rows hrows]
  refine ⟨runGenGo_snd _ _ _ hcols, ?_, ?_⟩
  · rw [runGenGo_length _ _ _ hcols]
    simp
  · intro j i hdom hshort
    have hj := j.isLt
    have hshort2 : (parseCSVLine rows[(j : Nat)]).length ≤ i := by
      simpa [List.get_eq_getElem] using hshort
    rw [runGenGo_getElem _ _ _ hcols j.val]
    have hget : rows[(j : Nat)]? = some rows[(j : Nat)] := by
      simp [List.getElem?_eq_getElem, hj]
    rw [List.getElem?_map, hget]
    simp only [Option.map_some', recordOfRow]
    rw [hdom]
    have hnone : (parseCSVLine rows[(j : Nat)])[i]? = none :=
      List.getElem?_eq_none hshort2
    simp [hnone]

/-- C2 amended witness: a two-row file whose second row lacks the `domain`
field. -/
theorem short_rows_fill_none_witness :
    ((runGen ["seq\tlabel_id\tlabel_name\tseq_info\tdomain",
      "ACGT\t0\tB1\tI1\tin",
      "TTAA\t1\tB2\tI2"]).1[(1 : Nat)]?).map (fun pr => pr.2.domain) = some none :=
  (short_rows_fill_none "seq\tlabel_id\tlabel_name\tseq_info\tdomain"
    ["ACGT\t0\tB1\tI1\tin", "TTAA\t1\tB2\tI2"] (by decide) (by decide)).2.2
    ⟨1, by decide⟩ 4 (by decide) (by decide)

/-- C7: no numeric coercion is performed on `label_id`: while the declared
schema types `label_id` as int32, any record the row parser yields carries
as `label_id` exactly the text of the `label_id` column, unchanged. -/
theorem label_id_text_passthrough (fn fields : List String) (rec : Record)
    (hnd : fn.Nodup) (hok : buildExample fn fields = .ok rec) :
    List.lookup "label_id" schema = some FeatureType.int32 ∧
    rec.label_id = columnText fn fields "label_id" := by
  refine ⟨rfl, ?_⟩
  cases h1 : keyGet fn fields "seq" with
  | error e => simp [buildExample, h1, Bind.bind, Except.bind] at hok
  | ok v1 =>
  cases h2 : keyGet fn fields "label_id" with
  | error e => simp [buildExample, h1, h2, Bind.bind, Except.bind] at hok
  | ok v2 =>
  cases h3 : keyGet fn fields "label_name" with
  | error e => simp [buildExample, h1, h2, h3, Bind.bind, Except.bind] at hok
  | ok v3 =>
  cases h4 : keyGet fn fields "seq_info" with
  | error e => simp [buildExample, h1, h2, h3, h4, Bind.bind, Except.bind] at hok
  | ok v4 =>
  cases h5 : keyGet fn fields "domain" with
  | error e => simp [buildExample, h1, h2, h3, h4, h5, Bind.bind, Except.bind] at hok
  | ok v5 =>
    simp only [buildExample, h1, h2, h3, h4, h5, Bind.bind, Except.bind,
      Pure.pure, Except.pure, Except.ok.injEq] at hok
    cases hid : lastIdxOf "label_id" fn with
    | none => simp [keyGet, hid] at h2
    | some i =>
      have hfi : firstIdxOf "label_id" fn = some i :=
        (lastIdxOf_eq_first fn hnd "label_id") ▸ hid
      simp only [keyGet, hid, Except.ok.injEq] at h2
      rw [← hok]
      simp [columnText, hfi, h2]

/-- C7 witness: a row whose `label_id` text is not numeric is still carried
verbatim. -/
theorem label_id_text_passthrough_witness :
    List.lookup "label_id" schema = some FeatureType.int32 ∧
    Record.label_id ⟨some "ACGT", some "x7", some "B", some "I", some "in"⟩ =
      columnText requiredColumns ["ACGT", "x7", "B", "I", "in"] "label_id" :=
  label_id_text_passthrough requiredColumns ["ACGT", "x7", "B", "I", "in"]
    ⟨some "ACGT", some "x7", some "B", some "I", some "in"⟩ (by decide) rfl

/-- C5: the parser assumes no column order: for two well-formed files whose
headers are permutations of the five required columns, with data rows (all
non-empty, equally many) carrying the same field values under the same
column names, parsing yields identical sequences of (ordinal, Record)
pairs. -/
theorem column_order_independent (hdr1 hdr2 : String) (rows1 rows2 : List String)
    (hp1 : (parseCSVLine hdr1).Perm requiredColumns)
    (hp2 : (parseCSVLine hdr2).Perm requiredColumns)
    (hlen : rows1.length = rows2.length)
    (hr1 : ∀ r ∈ rows1, r ≠ "") (hr2 : ∀ r ∈ rows2, r ≠ "")
    (hvals : ∀ j : Fin rows1.length, ∀ k ∈ requiredColumns,
      columnText (parseCSVLine hdr1) (parseCSVLine (rows1.get j)) k =
      columnText (parseCSVLine hdr2) (parseCSVLine (rows2.get ⟨j.val, hlen ▸ j.isLt⟩)) k) :
    runGen (hdr1 :: rows1) = runGen (hdr2 :: rows2) := by
  have hreq : requiredColumns.Nodup := by decide
  have hnd1 : (parseCSVLine hdr1).Nodup := hp1.nodup_iff.mpr hreq
  have hnd2 : (parseCSVLine hdr2).Nodup := hp2.nodup_iff.mpr hreq
  have hm1 : ∀ c ∈ requiredColumns, c ∈ parseCSVLine hdr1 := fun c hc => hp1.mem_iff.mpr hc
  have hm2 : ∀ c ∈ requiredColumns, c ∈ parseCSVLine hdr2 := fun c hc => hp2.mem_iff.mpr hc
  rw [runGen_eq _ _ hr1, runGen_eq _ _ hr2]
  have hsnd1 := runGenGo_snd (parseCSVLine hdr1) (rows1.map parseCSVLine) 0 hm1
  have hsnd2 := runGenGo_snd (parseCSVLine hdr2) (rows2.map parseCSVLine) 0 hm2
  apply Prod.ext_iff.mpr
  refine ⟨?_, by rw [hsnd1, hsnd2]⟩
  apply List.ext_getElem?
  intro j
  rw [runGenGo_getElem _ _ _ hm1 j, runGenGo_getElem _ _ _ hm2 j]
  by_cases hj : j < rows1.length
  · have hj2 : j < rows2.length := hlen ▸ hj
    have hg1 : rows1[j]? = some rows1[j] := by simp [List.getElem?_eq_getElem, hj]
    have hg2 : rows2[j]? = some rows2[j] := by simp [List.getElem?_eq_getElem, hj2]
    rw [List.getElem?_map, List.getElem?_map, hg1, hg2]
    simp only [Option.map_some']
    rw [recordOfRow_eq_spec (parseCSVLine hdr1) (parseCSVLine rows1[j]) hnd1,
      recordOfRow_eq_spec (parseCSVLine hdr2) (parseCSVLine rows2[j]) hnd2]
    have hv := hvals ⟨j, hj⟩
    simp only [List.get_eq_getElem] at hv
    simp only [specRecord, Record.mk.injEq, Option.some.injEq, Prod.mk.injEq]
    exact ⟨trivial, hv "seq" (by simp [requiredColumns]),
      hv "label_id" (by simp [requiredColumns]),
      hv "label_name" (by simp [requiredColumns]),
      hv "seq_info" (by simp [requiredColumns]),
      hv "domain" (by simp [requiredColumns])⟩
  · rw [List.getElem?_map, List.getElem?_map,
      List.getElem?_eq_none (by omega), List.getElem?_eq_none (by omega)]
    rfl

/-- C5 witness: the same single-row table under two header orders. -/
theorem column_order_independent_witness :
    runGen ["seq\tlabel_id\tlabel_name\tseq_info\tdomain", "ACGT\t0\tB\tI\tin"] =
    runGen ["domain\tseq\tlabel_id\tlabel_name\tseq_info", "in\tACGT\t0\tB\tI"] :=
  column_order_independent
    "seq\tlabel_id\tlabel_name\tseq_info\tdomain"
    "domain\tseq\tlabel_id\tlabel_name\tseq_info"
    ["ACGT\t0\tB\tI\tin"] ["in\tACGT\t0\tB\tI"]
    (by decide) (by decide) (by decide) (by decide) (by decide) (by decide)

end GenomicsOod
